import Mathlib

/-!
Shallow embedding of the `ephemeris` calendar package (the `part_001`
revision: `Event`, `Rule`, `Rule.Expand`, `ReduceAllEvents`, `reduceEvents`,
`isOverlap`).

Modelling conventions:
* `time.Time` instants are modelled as `Int` (a totally ordered, addable
  point; for the concrete calendar scenario the unit is one civil day, since
  every instant in that scenario is a UTC midnight and the repeat duration is
  a whole number of days).  `Before`/`After`/`Equal` become `<`/`>`/`=`.
* Fallible behaviour is explicit: a Go run-time panic is `GoResult.crash`,
  and unbounded loops are run on fuel, `GoResult.timeout` marking exhaustion.
* `slices.Replace(s, i, j, v...)` succeeds exactly when `i ≤ j ∧ j ≤ s.length`
  (otherwise Go panics with a bounds error); `goReplace` mirrors that.
-/

/-- Outcome of running a piece of Go code: normal return, run-time panic,
or out of fuel (the Go loop would still be running). -/
inductive GoResult (α : Type) where
  | ok (val : α) : GoResult α
  | crash : GoResult α
  | timeout : GoResult α
deriving DecidableEq

/-- `true` exactly on a normal return. -/
def GoResult.isOk {α : Type} : GoResult α → Bool
  | .ok _ => true
  | _ => false

/-- Go struct `Event` (part_001): a named half-open-ish time interval.
`Start`/`End` are instants, `Name` the label. -/
structure Event where
  Start : Int
  End : Int
  Name : String
deriving DecidableEq

/-- Go `isOverlap` (part_001 lines 290-307), translated condition by
condition: two early-return `false` branches, else `true`. -/
def isOverlap (e1 e2 : Event) : Bool :=
  if (e1.Start < e2.Start ∧ e1.End < e2.Start) ∨
     (e2.Start < e1.Start ∧ e2.End < e1.Start) then
    false
  else if e1.Start < e2.Start ∧ e2.Start = e1.End ∧ e1.End < e2.End then
    false
  else
    true

/-- Go `reduceEvents` (part_001 lines 207-287).  Each `if` chain branch is
translated in source order; the final unconditional `panic` is `none`.
Note the Go branch at lines 228-231 assigns `e1.Start = e2.End` to a local
copy and then discards it, so the returned pair is `([], [e2])`. -/
def reduceEvents (e1 e2 : Event) : Option (List Event × List Event) :=
  if isOverlap e1 e2 = false then
    some ([e1], [e2])
  else if e1.Start = e2.Start ∧ e1.End = e2.End then
    some ([], [e2])
  else if e1.Start = e2.Start ∧ e2.End < e1.End then
    some ([{ e1 with Start := e2.End }], [e2])
  else if e1.Start = e2.Start ∧ e1.End < e2.End then
    some ([], [e2])
  else if e1.Start < e2.Start ∧ e2.End < e1.End then
    some ([{ e1 with End := e2.Start }, { e1 with Start := e2.End }], [e2])
  else if e2.Start < e1.Start ∧ e1.End < e2.End then
    some ([], [e2])
  else if e1.Start < e2.Start ∧ e2.Start < e1.End ∧ e1.End < e2.End then
    some ([{ e1 with End := e2.Start }], [e2])
  else if e2.Start < e1.Start ∧ e1.Start < e2.End ∧ e2.End < e1.End then
    some ([{ e1 with Start := e2.End }], [e2])
  else
    none

/-- Go `slices.Replace(s, i, j, v...)`: replaces `s[i:j]` by `v`.  It returns
normally exactly when `0 ≤ i ≤ j ≤ len(s)`; otherwise the Go runtime panics
with a slice-bounds error (`none` here). -/
def goReplace {α : Type} (s : List α) (i j : Nat) (v : List α) : Option (List α) :=
  if i ≤ j ∧ j ≤ s.length then some (s.take i ++ v ++ s.drop j) else none

/-- The `for j != len(processedEvents)` loop of Go `ReduceAllEvents`
(part_001 lines 163-192), run on fuel (one unit per iteration).  The body:
adjust `i`/`j` when `i` has run off the end, test the end-of-scan break,
compare `processedEvents[i]` with `processedEvents[j]` (an out-of-range index
is a Go panic), either advance `i` or splice in `reduceEvents`' fragments via
two `slices.Replace` calls and restart from `(0, 1)`. -/
def reduceLoop : Nat → Nat → Nat → List Event → GoResult (List Event)
  | 0, _, _, _ => .timeout
  | fuel + 1, i0, j0, s =>
    if j0 = s.length then
      .ok s
    else
      let i := if i0 = s.length then 0 else i0
      let j := if i0 = s.length then j0 + 1 else j0
      if i = s.length - 2 ∧ j = s.length then
        .ok s
      else
        match s[i]?, s[j]? with
        | some ei, some ej =>
          if isOverlap ei ej = false then
            reduceLoop fuel (i + 1) j s
          else
            match reduceEvents ei ej with
            | none => .crash
            | some (u1, u2) =>
              match goReplace s i (i + 1) u1 with
              | none => .crash
              | some s1 =>
                match goReplace s1 (j + u1.length) (j + u1.length + 1) u2 with
                | none => .crash
                | some s2 => reduceLoop fuel 0 1 s2
        | _, _ => .crash

/-- Go `ReduceAllEvents` (part_001 lines 155-195).  Lists of fewer than two
events are returned at once; otherwise the scan loop runs.  Both Go `return`
sites yield a `nil` error, modelled as the `Option String` component. -/
def ReduceAllEvents (fuel : Nat) (events : List Event) :
    GoResult (List Event × Option String) :=
  if events.length < 2 then
    .ok (events, none)
  else
    match reduceLoop fuel 0 1 events with
    | .ok s => .ok (s, none)
    | .crash => .crash
    | .timeout => .timeout

/-- Go struct `Rule` (part_001 lines 49-93): an embedded `Event` plus the
recurrence configuration.  Defaults are the Go zero values. -/
structure Rule extends Event where
  RepeatDuration : Int := 0
  RepeatDateAnually : Int := 0
  RepeatWeekly : Int := 0
  RepeatDayOfMonthMonthly : Int := 0
  RepeatDaily : Int := 0
  RepeatForwardUntil : Int := 0
  RepeatBackwardUntil : Int := 0
  Skip : List Int := []
  Canceled : List Int := []

/-- The backward loop of Go `Rule.Expand` (part_001 lines 100-107): while
the evaluated start is strictly after `viewStart`, first shift the evaluated
end back by the repeat duration, append the event, then shift the start. -/
def backLoop (d viewStart : Int) (nm : String) :
    Nat → Int → Int → List Event → GoResult (List Event)
  | 0, _, _, _ => .timeout
  | fuel + 1, start, endT, acc =>
    if viewStart < start then
      backLoop d viewStart nm fuel (start - d) (endT - d)
        (acc ++ [{ Start := start, End := endT - d, Name := nm }])
    else
      .ok acc

/-- The forward loop of Go `Rule.Expand` (part_001 lines 110-118): while the
evaluated start is strictly before `viewEnd`, first shift the evaluated end
forward by the repeat duration, append the event, then shift the start. -/
def fwdLoop (d viewEnd : Int) (nm : String) :
    Nat → Int → Int → List Event → GoResult (List Event)
  | 0, _, _, _ => .timeout
  | fuel + 1, start, endT, acc =>
    if start < viewEnd then
      fwdLoop d viewEnd nm fuel (start + d) (endT + d)
        (acc ++ [{ Start := start, End := endT + d, Name := nm }])
    else
      .ok acc

/-- Go `Rule.Expand` (part_001 lines 96-121): run the backward loop from the
base occurrence, then the forward loop (with the evaluated end reset to the
base end) appending to the accumulated list. -/
def Rule.Expand (fuel : Nat) (r : Rule) (viewStart viewEnd : Int) :
    GoResult (List Event) :=
  match backLoop r.RepeatDuration viewStart r.Name fuel r.Start r.End [] with
  | .ok acc => fwdLoop r.RepeatDuration viewEnd r.Name fuel r.Start r.End acc
  | .crash => .crash
  | .timeout => .timeout

/-- Civil date to day count since 1970-01-01 (proleptic Gregorian), the
standard era-based algorithm.  Used to express the concrete instants of the
repository's `TestExpandEvents` scenario in day units. -/
def daysFromCivil (y m d : Int) : Int :=
  let yAdj := if m ≤ 2 then y - 1 else y
  let era := (if 0 ≤ yAdj then yAdj else yAdj - 399) / 400
  let yoe := yAdj - era * 400
  let mp := (m + 9) % 12
  let doy := (153 * mp + 2) / 5 + d - 1
  let doe := yoe * 365 + yoe / 4 - yoe / 100 + doy
  era * 146097 + doe - 719468

example : daysFromCivil 1970 1 1 = 0 := by decide

example : daysFromCivil 2020 2 13 = 18305 := by decide

example : daysFromCivil 2025 2 13 = 20132 := by decide

example : isOverlap ⟨0, 7, "one"⟩ ⟨0, 7, "two"⟩ = true := by decide

example : reduceEvents ⟨0, 7, "one"⟩ ⟨0, 7, "two"⟩ = some ([], [⟨0, 7, "two"⟩]) := by
  decide

example : reduceEvents ⟨-5, 2, "one"⟩ ⟨0, 8, "two"⟩ =
    some ([⟨-5, 0, "one"⟩], [⟨0, 8, "two"⟩]) := by decide

example : reduceEvents ⟨0, 8, "one"⟩ ⟨0, 7, "two"⟩ =
    some ([⟨7, 8, "one"⟩], [⟨0, 7, "two"⟩]) := by decide

/-- The input of the repository test `TestReduceAllEvents/Simple Overlap`
(two events overlapping in the middle), in day units from the first start. -/
def c1events : List Event := [⟨0, 2, "one"⟩, ⟨1, 3, "two"⟩]

/-- A pair of boundary-touching events (`a.End = b.Start`), the shape of the
repository test `TestReduceAllEvents/Multiple Non-overlapping Events Same
Start and End Times`. -/
def c3left : Event := ⟨0, 1, "earlier"⟩

/-- The later of the boundary-touching pair. -/
def c3right : Event := ⟨1, 2, "later"⟩

/-- Two disjoint events, shape of `TestReduceAllEvents/Multiple
Non-overlapping Events`. -/
def c8events : List Event := [⟨0, 1, "p"⟩, ⟨10, 20, "q"⟩]

/-- The rule of repository test `TestExpandEvents/Every 365 days Duration`:
base occurrence 2020-02-13 to 2020-02-14, repeating every 365 days, forward
limit 2025-02-13 (instants in days, durations in days). -/
def c5rule : Rule :=
  { Start := daysFromCivil 2020 2 13
    End := daysFromCivil 2020 2 14
    Name := "Birthday"
    RepeatDuration := 365
    RepeatForwardUntil := daysFromCivil 2025 2 13 }

/-- What `Rule.Expand` actually produces for `c5rule` over the test window:
six events whose evaluated end runs one repeat period ahead of the start. -/
def c5actual : List Event :=
  [⟨18305, 18671, "Birthday"⟩, ⟨18670, 19036, "Birthday"⟩,
   ⟨19035, 19401, "Birthday"⟩, ⟨19400, 19766, "Birthday"⟩,
   ⟨19765, 20131, "Birthday"⟩, ⟨20130, 20496, "Birthday"⟩]

/-- A non-repeating rule (`RepeatDuration = 0`) whose base occurrence sits
inside the query window. -/
def c6rule : Rule := { Start := 0, End := 1, Name := "zero-step", RepeatDuration := 0 }

example : ReduceAllEvents 10 [⟨0, 1, "only"⟩] = .ok ([⟨0, 1, "only"⟩], none) := by
  decide

/-- Claim C1: the claim says `ReduceAllEvents` terminates normally on every
list of valid events with a pairwise non-overlapping output.  In fact the
scan loop reaches the self-pair `(i, j) = (1, 1)` or splices with the
off-by-one index `j + len(fragments)`, so already on the repository's own
`Simple Overlap` test input the second `slices.Replace` is called with
bounds `[3:4]` on a two-element list and the Go runtime panics: for every
fuel the run is never a normal return. -/
theorem C1_reduceAllEvents_crashes_on_simple_overlap :
    ∀ fuel : Nat, (ReduceAllEvents fuel c1events).isOk = false := by
  intro fuel
  cases fuel with
  | zero => rfl
  | succ n => rfl

/-- Claim C2: the claim says every valid overlapping configuration matches a
case of `reduceEvents` and the final panic is unreachable.  The configuration
`e1 = [0, 2]`, `e2 = [1, 2]` (valid, overlapping, equal ends with distinct
starts) falls through every case to the panic: the model returns `none`. -/
theorem C2_reduceEvents_hits_unmatched_configuration :
    reduceEvents ⟨0, 2, "low"⟩ ⟨1, 2, "high"⟩ = none ∧
    (Event.mk 0 2 "low").Start ≤ (Event.mk 0 2 "low").End ∧
    (Event.mk 1 2 "high").Start ≤ (Event.mk 1 2 "high").End := by
  decide

/-- Claim C3: the claim says boundary-touching events do not overlap in
either argument order and survive reduction unchanged.  In the code
`isOverlap` is asymmetric — with `a.End = b.Start` it returns `false` for
`(a, b)` but `true` for `(b, a)` — and `ReduceAllEvents [a, b]` panics (the
self-pair `(1, 1)` is reduced and respliced out of bounds) instead of
returning the pair unchanged. -/
theorem C3_boundary_touch_overlap_asymmetric_and_reduce_crashes :
    isOverlap c3left c3right = false ∧
    isOverlap c3right c3left = true ∧
    ∀ fuel : Nat, (ReduceAllEvents fuel [c3left, c3right]).isOk = false := by
  refine ⟨rfl, rfl, ?_⟩
  intro fuel
  match fuel with
  | 0 => rfl
  | 1 => rfl
  | n + 2 => rfl

/-- Claim C8: the claim says `ReduceAllEvents` is idempotent on every input.
On any two-element input — here two disjoint valid events — it never returns
normally at all (the self-pair step panics in `slices.Replace`), so there is
no result to feed back in. -/
theorem C8_reduceAllEvents_never_returns_on_disjoint_pair :
    ∀ fuel : Nat, (ReduceAllEvents fuel c8events).isOk = false := by
  intro fuel
  match fuel with
  | 0 => rfl
  | 1 => rfl
  | n + 2 => rfl

/-- Claim C5: the claim says expanding the test rule over the window
2020-02-13 to 2025-02-13 yields exactly 5 occurrences, one per year, each
`[Feb 13, Feb 14)`.  The code's forward loop shifts the evaluated end before
appending (so every end runs one full period ahead of its start), never
consults `RepeatForwardUntil`, and iterates while the start is before the
window end: it yields 6 occurrences whose starts drift across leap years to
Feb 12 and Feb 11 and whose ends land a year late. -/
theorem C5_expand_test_scenario_yields_six_drifting_events :
    Rule.Expand 20 c5rule (daysFromCivil 2020 2 13) (daysFromCivil 2025 2 13) =
      .ok c5actual ∧
    c5actual.length = 6 ∧
    c5actual.map Event.Start =
      [daysFromCivil 2020 2 13, daysFromCivil 2021 2 12, daysFromCivil 2022 2 12,
       daysFromCivil 2023 2 12, daysFromCivil 2024 2 12, daysFromCivil 2025 2 11] ∧
    c5actual.map Event.End =
      [daysFromCivil 2021 2 13, daysFromCivil 2022 2 13, daysFromCivil 2023 2 13,
       daysFromCivil 2024 2 13, daysFromCivil 2025 2 12, daysFromCivil 2026 2 12] := by
  decide

/-- Helper for claim C6: with a zero repeat duration the forward loop of
`Rule.Expand` never advances its start, so once the start is before the
window end the loop runs forever (every fuel is exhausted). -/
theorem fwdLoop_zero_duration_diverges (ve : Int) (nm : String) :
    ∀ (fuel : Nat) (st en : Int) (acc : List Event), st < ve →
      fwdLoop 0 ve nm fuel st en acc = .timeout := by
  intro fuel
  induction fuel with
  | zero => intro st en acc h; rfl
  | succ n ih =>
    intro st en acc h
    simp only [fwdLoop, if_pos h]
    simpa using ih (st + 0) (en + 0) _ (by simpa using h)

/-- Claim C6: the claim says a rule with zero `RepeatDuration` makes `Expand`
terminate, considering only the base occurrence.  In the code a zero step
leaves the loop variable unchanged, so for the rule with base `[0, 1)` over
the window `[0, 10)` the forward loop never terminates: the run times out at
every fuel instead of returning the base occurrence. -/
theorem C6_expand_zero_duration_never_terminates :
    ∀ fuel : Nat, Rule.Expand fuel c6rule 0 10 = .timeout := by
  intro fuel
  cases fuel with
  | zero => rfl
  | succ n =>
    exact fwdLoop_zero_duration_diverges 10 "zero-step" (n + 1) 0 1 [] (by norm_num)

/-- Claim C4: on every pair of events on which `reduceEvents` returns, the
second returned list is exactly `[e2]` with `e2` unmodified — every matched
geometric case keeps the higher-priority event intact. -/
theorem C4_reduceEvents_returns_e2_unmodified (e1 e2 : Event) (l1 l2 : List Event)
    (_h1 : e1.Start ≤ e1.End) (_h2 : e2.Start ≤ e2.End)
    (h : reduceEvents e1 e2 = some (l1, l2)) : l2 = [e2] := by
  unfold reduceEvents at h
  split_ifs at h <;> simp_all

/-- Witness for C4 at the `Middle Overlap` row of `TestSquashEvents`. -/
theorem C4_witness :
    reduceEvents ⟨-5, 2, "one"⟩ ⟨0, 8, "two"⟩ =
      some ([⟨-5, 0, "one"⟩], [⟨0, 8, "two"⟩]) ∧
    ([⟨0, 8, "two"⟩] : List Event) = [⟨0, 8, "two"⟩] := by
  refine ⟨by decide, ?_⟩
  exact C4_reduceEvents_returns_e2_unmodified ⟨-5, 2, "one"⟩ ⟨0, 8, "two"⟩
    [⟨-5, 0, "one"⟩] [⟨0, 8, "two"⟩] (by decide) (by decide) (by decide)

/-- Claim C7: on every pair of valid events on which `reduceEvents` returns,
the total number of fragments across both returned lists is between 1 and 3. -/
theorem C7_reduceEvents_fragment_bound (e1 e2 : Event) (l1 l2 : List Event)
    (_h1 : e1.Start ≤ e1.End) (_h2 : e2.Start ≤ e2.End)
    (h : reduceEvents e1 e2 = some (l1, l2)) :
    1 ≤ l1.length + l2.length ∧ l1.length + l2.length ≤ 3 := by
  unfold reduceEvents at h
  split_ifs at h
  all_goals first
    | exact Option.noConfusion h
    | (simp only [Option.some.injEq, Prod.mk.injEq] at h
       obtain ⟨rfl, rfl⟩ := h
       simp only [List.length_cons, List.length_nil]
       omega)

/-- Witness for C7 at a strictly nested pair (the 3-fragment case). -/
theorem C7_witness :
    reduceEvents ⟨0, 5, "outer"⟩ ⟨1, 2, "inner"⟩ =
      some ([⟨0, 1, "outer"⟩, ⟨2, 5, "outer"⟩], [⟨1, 2, "inner"⟩]) ∧
    (1 ≤ ([⟨0, 1, "outer"⟩, ⟨2, 5, "outer"⟩] : List Event).length +
          ([⟨1, 2, "inner"⟩] : List Event).length ∧
      ([⟨0, 1, "outer"⟩, ⟨2, 5, "outer"⟩] : List Event).length +
          ([⟨1, 2, "inner"⟩] : List Event).length ≤ 3) := by
  refine ⟨by decide, ?_⟩
  exact C7_reduceEvents_fragment_bound ⟨0, 5, "outer"⟩ ⟨1, 2, "inner"⟩
    [⟨0, 1, "outer"⟩, ⟨2, 5, "outer"⟩] [⟨1, 2, "inner"⟩]
    (by decide) (by decide) (by decide)

/-- Claim C9: whenever `ReduceAllEvents` returns normally, its error
component is `nil` — both Go return sites return a `nil` error, so failures
never surface through the error value (they surface as a crash). -/
theorem C9_reduceAllEvents_error_always_nil
    (fuel : Nat) (events l : List Event) (err : Option String)
    (h : ReduceAllEvents fuel events = .ok (l, err)) : err = none := by
  unfold ReduceAllEvents at h
  split at h
  · simp only [GoResult.ok.injEq, Prod.mk.injEq] at h
    exact h.2.symm
  · split at h
    · simp only [GoResult.ok.injEq, Prod.mk.injEq] at h
      exact h.2.symm
    · exact absurd h (by simp)
    · exact absurd h (by simp)

/-- Witness for C9 on a singleton input. -/
theorem C9_witness :
    ReduceAllEvents 3 [⟨0, 1, "solo"⟩] = .ok ([⟨0, 1, "solo"⟩], none) ∧
    (none : Option String) = none := by
  refine ⟨by decide, ?_⟩
  exact C9_reduceAllEvents_error_always_nil 3 [⟨0, 1, "solo"⟩] [⟨0, 1, "solo"⟩]
    none (by decide)

/-- Claim C10: every fragment `reduceEvents` derives from its first argument
is a sub-interval of that argument, is itself a valid interval, and carries
the first argument's name — clipping never extends or relabels. -/
theorem C10_reduceEvents_fragments_contained (e1 e2 : Event) (l1 l2 : List Event)
    (f : Event) (h1 : e1.Start ≤ e1.End) (h2 : e2.Start ≤ e2.End)
    (h : reduceEvents e1 e2 = some (l1, l2)) (hf : f ∈ l1) :
    e1.Start ≤ f.Start ∧ f.End ≤ e1.End ∧ f.Start ≤ f.End ∧ f.Name = e1.Name := by
  unfold reduceEvents at h
  split_ifs at h with hov hA hB hC hD hE hF hG
  · simp only [Option.some.injEq, Prod.mk.injEq] at h
    obtain ⟨rfl, rfl⟩ := h
    simp only [List.mem_singleton] at hf
    subst hf
    exact ⟨le_refl _, le_refl _, h1, rfl⟩
  · simp only [Option.some.injEq, Prod.mk.injEq] at h
    obtain ⟨rfl, rfl⟩ := h
    simp at hf
  · simp only [Option.some.injEq, Prod.mk.injEq] at h
    obtain ⟨rfl, rfl⟩ := h
    simp only [List.mem_singleton] at hf
    subst hf
    refine ⟨?_, ?_, ?_, rfl⟩ <;> simp only [] <;> omega
  · simp only [Option.some.injEq, Prod.mk.injEq] at h
    obtain ⟨rfl, rfl⟩ := h
    simp at hf
  · simp only [Option.some.injEq, Prod.mk.injEq] at h
    obtain ⟨rfl, rfl⟩ := h
    simp only [List.mem_cons, List.mem_singleton, List.not_mem_nil, or_false] at hf
    rcases hf with rfl | rfl <;> (refine ⟨?_, ?_, ?_, rfl⟩ <;> simp only [] <;> omega)
  · simp only [Option.some.injEq, Prod.mk.injEq] at h
    obtain ⟨rfl, rfl⟩ := h
    simp at hf
  · simp only [Option.some.injEq, Prod.mk.injEq] at h
    obtain ⟨rfl, rfl⟩ := h
    simp only [List.mem_singleton] at hf
    subst hf
    refine ⟨?_, ?_, ?_, rfl⟩ <;> simp only [] <;> omega
  · simp only [Option.some.injEq, Prod.mk.injEq] at h
    obtain ⟨rfl, rfl⟩ := h
    simp only [List.mem_singleton] at hf
    subst hf
    refine ⟨?_, ?_, ?_, rfl⟩ <;> simp only [] <;> omega

/-- Witness for C10 at a left partial overlap. -/
theorem C10_witness :
    reduceEvents ⟨0, 4, "left"⟩ ⟨2, 6, "right"⟩ =
      some ([⟨0, 2, "left"⟩], [⟨2, 6, "right"⟩]) ∧
    ((Event.mk 0 4 "left").Start ≤ (Event.mk 0 2 "left").Start ∧
      (Event.mk 0 2 "left").End ≤ (Event.mk 0 4 "left").End ∧
      (Event.mk 0 2 "left").Start ≤ (Event.mk 0 2 "left").End ∧
      (Event.mk 0 2 "left").Name = (Event.mk 0 4 "left").Name) := by
  refine ⟨by decide, ?_⟩
  exact C10_reduceEvents_fragments_contained ⟨0, 4, "left"⟩ ⟨2, 6, "right"⟩
    [⟨0, 2, "left"⟩] [⟨2, 6, "right"⟩] ⟨0, 2, "left"⟩
    (by decide) (by decide) (by decide) (by decide)
